import Mathlib

/-!
Verification of the drum-machine step sequencer and pattern-bank / chain-mode
state machine.  The definitions below are a shallow embedding of the
`Sequencer` module (two-layer scheduler, transport, pattern mutation) and the
`SongMode` module (10-slot pattern bank, quantized slot switching, chain
playback).  JavaScript numbers are modelled as `ℚ`; JS truthiness for numbers
is `≠ 0`, for strings `≠ ""`; `null`/`undefined` fields are modelled with
`Option`.  Out-of-range JS array writes extend the array; the resulting holes
read back as `undefined`, which every consumer in these modules treats exactly
like `0`, so holes are modelled as `0`.
-/

namespace DrumMachine

/-- One track of a pattern: the ordered array of step values (JS numbers). -/
abbrev Track := List ℚ

/-- A pattern object: `{ name, tempo, pattern: { trackId: steps, ... } }`.
The JS `pattern` field (the track map) is modelled as an association list. -/
structure PatternData where
  name : String
  tempo : ℚ
  tracks : List (String × Track)
deriving Repr, DecidableEq

/-- One slot of the 10-slot pattern bank (`SongMode.patternBank[i]`).
`loopTracks` is the opaque exported loop-pedal data (base64 in the source). -/
structure PatternSlot where
  index : Nat
  name : String
  pattern : Option PatternData
  tempo : ℚ
  timeSignature : String
  stepCount : Nat
  repeats : Nat
  loopTracks : Option String
  isEmpty : Bool
deriving Repr, DecidableEq

/-- The slot contents written both by `initializePatternBank` and by
`clearPatternSlot`: no pattern, default tempo 120, default meta, one repeat. -/
def blankSlot (i : Nat) : PatternSlot :=
  { index := i
    name := "Pattern " ++ toString (i + 1)
    pattern := none
    tempo := 120
    timeSignature := "4/4"
    stepCount := 16
    repeats := 1
    loopTracks := none
    isEmpty := true }

/-- `track.some(step => step === 1)` from `isPatternEmpty`. -/
def trackHasHit (t : Track) : Bool :=
  t.any (fun v => v == 1)

/-- `SongMode.isPatternEmpty`: a slot is treated as empty when it has no
pattern object or when no track contains a step value strictly equal to 1. -/
def isPatternEmpty (slot : PatternSlot) : Bool :=
  match slot.pattern with
  | none => true
  | some p => ! p.tracks.any (fun tr => trackHasHit tr.2)

/-- The bounded scan loop
`while (i < 10 && isPatternEmpty(patternBank[i])) i++`, written with explicit
fuel so it computes by structural recursion.  Called with fuel `10 - i` it is
exactly the source loop. -/
def scanFromAux (bank : List PatternSlot) : Nat → Nat → Nat
  | 0, i => i
  | fuel + 1, i =>
    if i < 10 then
      if isPatternEmpty (bank.getD i (blankSlot i)) then scanFromAux bank fuel (i + 1)
      else i
    else i

/-- Result of the scan loop started at index `i`. -/
def scanFrom (bank : List PatternSlot) (i : Nat) : Nat :=
  scanFromAux bank (10 - i) i

/-- Slot selection made by `startChainMode`: scan from 0; a result `≥ 10`
means no playable slot, in which case chain mode stops (`none`). -/
def startChainSelect (bank : List PatternSlot) : Option Nat :=
  let i := scanFrom bank 0
  if i < 10 then some i else none

/-- Slot selection made by `advanceChainPattern` from current slot `cur`:
scan upward from `cur + 1`; on reaching the end wrap to 0 and scan again;
if that also fails chain mode stops (`none`). -/
def advanceChainSelect (bank : List PatternSlot) (cur : Nat) : Option Nat :=
  let i := scanFrom bank (cur + 1)
  if i < 10 then some i
  else
    let j := scanFrom bank 0
    if j < 10 then some j else none

theorem scanFromAux_not_empty (bank : List PatternSlot) :
    ∀ fuel i, 10 ≤ fuel + i → scanFromAux bank fuel i < 10 →
      isPatternEmpty (bank.getD (scanFromAux bank fuel i)
        (blankSlot (scanFromAux bank fuel i))) = false := by
  intro fuel
  induction fuel with
  | zero =>
    intro i hge hlt
    simp only [scanFromAux] at hlt
    omega
  | succ n ih =>
    intro i hge hlt
    have heq : scanFromAux bank (n + 1) i =
        if i < 10 then
          if isPatternEmpty (bank.getD i (blankSlot i)) then scanFromAux bank n (i + 1)
          else i
        else i := rfl
    by_cases hi : i < 10
    · by_cases hemp : isPatternEmpty (bank.getD i (blankSlot i)) = true
      · rw [heq, if_pos hi, if_pos hemp] at hlt ⊢
        exact ih (i + 1) (by omega) hlt
      · rw [heq, if_pos hi, if_neg hemp] at hlt ⊢
        exact Bool.eq_false_iff.mpr hemp
    · rw [heq, if_neg hi] at hlt
      omega

theorem scanFrom_not_empty (bank : List PatternSlot) (i : Nat)
    (h : scanFrom bank i < 10) :
    isPatternEmpty (bank.getD (scanFrom bank i) (blankSlot (scanFrom bank i))) = false := by
  by_cases hi : i < 10
  · exact scanFromAux_not_empty bank (10 - i) i (by omega) h
  · have : scanFrom bank i = i := by
      unfold scanFrom
      have : 10 - i = 0 := by omega
      simp [this, scanFromAux]
    rw [this] at h
    omega

theorem isPatternEmpty_false_iff (slot : PatternSlot) :
    isPatternEmpty slot = false ↔
      ∃ p tr, slot.pattern = some p ∧ tr ∈ p.tracks ∧ (1 : ℚ) ∈ tr.2 := by
  cases hp : slot.pattern with
  | none => simp [isPatternEmpty, hp]
  | some p =>
    have hrw : isPatternEmpty slot = ! p.tracks.any (fun tr => trackHasHit tr.2) := by
      unfold isPatternEmpty
      rw [hp]
    rw [hrw, Bool.not_eq_false', List.any_eq_true]
    constructor
    · rintro ⟨tr, htr, hhit⟩
      obtain ⟨v, hv, hbeq⟩ := List.any_eq_true.mp hhit
      obtain rfl : v = 1 := beq_iff_eq.mp hbeq
      exact ⟨p, tr, rfl, htr, hv⟩
    · rintro ⟨q, tr, hq, htr, hone⟩
      obtain rfl : p = q := Option.some.inj hq
      exact ⟨tr, htr, List.any_eq_true.mpr ⟨1, hone, beq_iff_eq.mpr rfl⟩⟩

/-- **C1**: every slot index selected by the chain-mode state machine — on
chain start (`startChainMode`) as well as on every advance
(`advanceChainPattern`) — refers to a slot whose pattern contains at least one
step value equal to 1 on some track; a slot with zero active steps is never
selected, regardless of its `isEmpty` flag. -/
theorem chain_selection_has_active_step (bank : List PatternSlot) (cur i : Nat)
    (h : startChainSelect bank = some i ∨ advanceChainSelect bank cur = some i) :
    ∃ p tr, (bank.getD i (blankSlot i)).pattern = some p ∧
      tr ∈ p.tracks ∧ (1 : ℚ) ∈ tr.2 := by
  have hne : isPatternEmpty (bank.getD i (blankSlot i)) = false := by
    rcases h with h | h
    · unfold startChainSelect at h
      by_cases hlt : scanFrom bank 0 < 10
      · simp only [hlt, if_pos] at h
        cases h
        exact scanFrom_not_empty bank 0 hlt
      · simp [hlt] at h
    · unfold advanceChainSelect at h
      by_cases hlt : scanFrom bank (cur + 1) < 10
      · simp only [hlt, if_pos] at h
        cases h
        exact scanFrom_not_empty bank (cur + 1) hlt
      · simp only [hlt, if_neg, Bool.false_eq_true, not_false_iff] at h
        by_cases hlt2 : scanFrom bank 0 < 10
        · simp only [hlt2, if_pos, Option.some.injEq] at h
          cases h
          exact scanFrom_not_empty bank 0 hlt2
        · simp [hlt, hlt2] at h
  exact (isPatternEmpty_false_iff _).mp hne

/-- A bank with a single kick hit in slot 0 used as concrete witness input. -/
def exChainPattern : PatternData :=
  { name := "P", tempo := 120, tracks := [("kick", [1, 0, 0, 0])] }

def exChainBank : List PatternSlot :=
  { index := 0, name := "Pattern 1", pattern := some exChainPattern, tempo := 120,
    timeSignature := "4/4", stepCount := 16, repeats := 1, loopTracks := none,
    isEmpty := false } :: (List.range 9).map (fun i => blankSlot (i + 1))

theorem chain_selection_has_active_step_witness :
    startChainSelect exChainBank = some 0 ∧
      ∃ p tr, (exChainBank.getD 0 (blankSlot 0)).pattern = some p ∧
        tr ∈ p.tracks ∧ (1 : ℚ) ∈ tr.2 := by
  constructor
  · rfl
  · exact chain_selection_has_active_step exChainBank 0 0 (Or.inl rfl)

/-! ## Sequencer module state (`part_004`)

Module-level variables of the `Sequencer` IIFE: the current pattern, tempo,
time signature, step count, playback position and the scheduler clock state. -/

structure SeqState where
  currentPattern : Option PatternData
  tempo : ℚ
  timeSignature : String
  stepCount : Nat
  currentStep : Nat
  isPlaying : Bool
  isPaused : Bool
  nextNoteTime : ℚ
deriving Repr, DecidableEq

/-- Initial module state: `tempo = 120`, `'4/4'`, 16 steps, stopped at step 0. -/
def initSeq : SeqState :=
  { currentPattern := none, tempo := 120, timeSignature := "4/4", stepCount := 16,
    currentStep := 0, isPlaying := false, isPaused := false, nextNoteTime := 0 }

/-- `noteDuration` computed inside `nextNote`: `(60.0 / tempo) / 4` (a 16th). -/
def noteDuration (s : SeqState) : ℚ :=
  (60 / s.tempo) / 4

/-- `Sequencer.nextNote`: advance the audio-clock target by one 16th note and
step the position, wrapping (and signalling the bar) at `stepCount`. -/
def nextNote (s : SeqState) : SeqState :=
  { s with
    nextNoteTime := s.nextNoteTime + noteDuration s
    currentStep := if s.currentStep + 1 ≥ s.stepCount then 0 else s.currentStep + 1 }

/-- Events observable from the scheduler: the trigger dispatch for a step
(`scheduleNote` + `stepTriggered`) and the `barCompleted` emission. -/
inductive SeqEv where
  | stepTriggered (step : Nat)
  | barCompleted
deriving Repr, DecidableEq

/-- One iteration of the look-ahead loop body in `scheduler`:
`scheduleNote(currentStep, nextNoteTime)` followed by `nextNote()`.  The bar
event is emitted by `nextNote` after the wrapped step's own trigger. -/
def schedStep (s : SeqState) : SeqState × List SeqEv :=
  (nextNote s,
    SeqEv.stepTriggered s.currentStep ::
      (if s.currentStep + 1 ≥ s.stepCount then [SeqEv.barCompleted] else []))

/-- `n` consecutive iterations of the scheduling loop, with the emitted event
trace.  A poll tick runs some number of consecutive iterations; the flat
sequence of iterations is the same however they are grouped into ticks. -/
def schedRun : Nat → SeqState → SeqState × List SeqEv
  | 0, s => (s, [])
  | n + 1, s =>
    let r := schedStep s
    let r₂ := schedRun n r.1
    (r₂.1, r.2 ++ r₂.2)

/-- `Sequencer.setTempo`: clamp to `[60, 180]`. -/
def setTempo (newTempo : ℚ) (s : SeqState) : SeqState :=
  { s with tempo := max 60 (min 180 newTempo) }

def getTempo (s : SeqState) : ℚ := s.tempo

/-- `Sequencer.setTimeSignature`: accepted only from the fixed list. -/
def setTimeSignature (ts : String) (s : SeqState) : SeqState :=
  if ts = "4/4" ∨ ts = "3/4" ∨ ts = "12/8" then { s with timeSignature := ts } else s

/-- `Sequencer.setStepCount`: clamp to `[4, 48]`; the track arrays are not
touched. -/
def setStepCount (n : Nat) (s : SeqState) : SeqState :=
  { s with stepCount := max 4 (min 48 n) }

/-- `Sequencer.play`: no-op when already playing; resume from the preserved
step when paused, else restart at step 0; re-sync `nextNoteTime` to now. -/
def play (now : ℚ) (s : SeqState) : SeqState :=
  if s.isPlaying then s
  else
    { s with
      isPlaying := true
      currentStep := if s.isPaused then s.currentStep else 0
      isPaused := false
      nextNoteTime := now }

/-- `Sequencer.pause`: no-op when not playing; otherwise halt the driver and
mark paused, preserving `currentStep`. -/
def pause (s : SeqState) : SeqState :=
  if !s.isPlaying then s
  else { s with isPlaying := false, isPaused := true }

/-- `Sequencer.stop`: `pause()` then clear the paused flag and reset to 0. -/
def stop (s : SeqState) : SeqState :=
  let s₁ := pause s
  { s₁ with isPaused := false, currentStep := 0 }

/-! ### Pattern mutation -/

/-- Look up a track array by id (`currentPattern.pattern[instrument]`). -/
def findTrack (tracks : List (String × Track)) (id : String) : Option Track :=
  (tracks.find? (fun tr => tr.1 == id)).map Prod.snd

/-- Replace the array stored under a track id. -/
def updateTrack (tracks : List (String × Track)) (id : String) (arr : Track) :
    List (String × Track) :=
  tracks.map (fun tr => if tr.1 == id then (tr.1, arr) else tr)

/-- JS array element assignment `arr[i] = v`: in range it overwrites, past the
end it extends the array (the holes read back as `0`, see module comment). -/
def writeStep (arr : Track) (i : Nat) (v : ℚ) : Track :=
  if i < arr.length then arr.set i v
  else arr ++ List.replicate (i - arr.length) 0 ++ [v]

/-- `Sequencer.toggleStep`: only the existence of the pattern and of the track
is checked; the step index itself is written unconditionally. -/
def toggleStep (instrument : String) (step : Nat) (s : SeqState) : SeqState :=
  match s.currentPattern with
  | none => s
  | some p =>
    match findTrack p.tracks instrument with
    | none => s
    | some arr =>
      let currentValue := arr.getD step 0
      let newValue : ℚ := if currentValue ≠ 0 then 0 else 1
      { s with
          currentPattern :=
            some ({ p with tracks := updateTrack p.tracks instrument (writeStep arr step newValue) }) }

/-- `Sequencer.setStep`: same guards as `toggleStep`; stores `value ? 1 : 0`. -/
def setStep (instrument : String) (step : Nat) (value : ℚ) (s : SeqState) : SeqState :=
  match s.currentPattern with
  | none => s
  | some p =>
    match findTrack p.tracks instrument with
    | none => s
    | some arr =>
      let newValue : ℚ := if value ≠ 0 then 1 else 0
      { s with
          currentPattern :=
            some ({ p with tracks := updateTrack p.tracks instrument (writeStep arr step newValue) }) }

/-- `Sequencer.getStep`: `0` when no pattern or track; out-of-range reads give
`undefined` in JS, modelled as `0` (every consumer treats them alike). -/
def getStep (instrument : String) (step : Nat) (s : SeqState) : ℚ :=
  match s.currentPattern with
  | none => 0
  | some p =>
    match findTrack p.tracks instrument with
    | none => 0
    | some arr => arr.getD step 0

/-! ### Pattern loading -/

/-- `while (arr.length < n) arr.push(0)`. -/
def padTo (n : Nat) (arr : Track) : Track :=
  arr ++ List.replicate (n - arr.length) 0

/-- `loadPattern`/`importPattern` body: extend each track belonging to a known
instrument to the maximum 48 steps. -/
def extendInstrumentTracks (instruments : List String) (tracks : List (String × Track)) :
    List (String × Track) :=
  tracks.map (fun tr => if instruments.contains tr.1 then (tr.1, padTo 48 tr.2) else tr)

def loopIds : List String :=
  ["loop1", "loop2", "loop3", "loop4", "loop5", "loop6", "loop7", "loop8"]

/-- One step of `initializeLoopTracks`: create the loop track with 48 zero
steps when missing, otherwise pad it to at least 48 steps. -/
def addLoopTrack (tracks : List (String × Track)) (loopId : String) :
    List (String × Track) :=
  match tracks.find? (fun tr => tr.1 == loopId) with
  | some _ => tracks.map (fun tr => if tr.1 == loopId then (tr.1, padTo 48 tr.2) else tr)
  | none => tracks ++ [(loopId, List.replicate 48 0)]

def initializeLoopTracks (tracks : List (String × Track)) : List (String × Track) :=
  loopIds.foldl addLoopTrack tracks

def initializeLoopTracksS (s : SeqState) : SeqState :=
  match s.currentPattern with
  | none => s
  | some p => { s with currentPattern := some ({ p with tracks := initializeLoopTracks p.tracks }) }

/-- The empty pattern structure built by `loadPattern(null)`: all known
instrument tracks zeroed at 48 steps, keeping the current tempo. -/
def emptyPattern (instruments : List String) (tempo : ℚ) : PatternData :=
  { name := "Empty Pattern", tempo := tempo,
    tracks := instruments.map (fun id => (id, List.replicate 48 0)) }

/-- `Sequencer.loadPattern`: a null pattern creates an empty structure (tempo
kept); otherwise deep-clone the pattern and adopt its tempo unclamped, then
extend instrument tracks to 48 and ensure the loop tracks exist. -/
def loadPattern (instruments : List String) (pattern : Option PatternData)
    (s : SeqState) : SeqState :=
  match pattern with
  | none =>
    initializeLoopTracksS { s with currentPattern := some (emptyPattern instruments s.tempo) }
  | some p =>
    initializeLoopTracksS
      { s with
        currentPattern := some ({ p with tracks := extendInstrumentTracks instruments p.tracks })
        tempo := p.tempo }

/-- Session data consumed by `Sequencer.importPattern`; `Option` models
absent fields.  JS truthiness guards: `if (data.tempo)` skips `0`,
`if (data.timeSignature)` skips `""`, `if (data.stepCount !== undefined)`. -/
structure ImportData where
  pattern : Option PatternData
  tempo : Option ℚ
  timeSignature : Option String
  stepCount : Option Nat
deriving Repr, DecidableEq

/-- `if (data.pattern) { currentPattern = deep clone; extend; init loops }`. -/
def importPatternStage1 (instruments : List String) (dp : Option PatternData)
    (s : SeqState) : SeqState :=
  match dp with
  | none => s
  | some p =>
    initializeLoopTracksS
      { s with currentPattern := some ({ p with tracks := extendInstrumentTracks instruments p.tracks }) }

/-- `if (data.tempo) tempo = data.tempo` — no clamping, `0` is falsy. -/
def importPatternStage2 (dt : Option ℚ) (s : SeqState) : SeqState :=
  match dt with
  | none => s
  | some t => if t ≠ 0 then { s with tempo := t } else s

/-- `if (data.timeSignature) timeSignature = data.timeSignature`. -/
def importPatternStage3 (dts : Option String) (s : SeqState) : SeqState :=
  match dts with
  | none => s
  | some ts => if ts ≠ "" then { s with timeSignature := ts } else s

/-- `if (data.stepCount !== undefined) stepCount = data.stepCount` — no
clamping. -/
def importPatternStage4 (dsc : Option Nat) (s : SeqState) : SeqState :=
  match dsc with
  | none => s
  | some n => { s with stepCount := n }

/-- `Sequencer.importPattern`: restores pattern, tempo, time signature and
step count from a saved session, as the sequential composition of its four
`if` blocks — tempo and step count are assigned without clamping. -/
def importPattern (instruments : List String) (d : ImportData) (s : SeqState) : SeqState :=
  importPatternStage4 d.stepCount
    (importPatternStage3 d.timeSignature
      (importPatternStage2 d.tempo
        (importPatternStage1 instruments d.pattern s)))

/-! ## Scheduler timing (C2) -/

theorem schedRun_succ_fst (n : Nat) (s : SeqState) :
    (schedRun (n + 1) s).1 = (schedRun n (nextNote s)).1 := rfl

theorem schedRun_tempo (n : Nat) (s : SeqState) : (schedRun n s).1.tempo = s.tempo := by
  induction n generalizing s with
  | zero => rfl
  | succ k ih =>
    rw [schedRun_succ_fst, ih]
    rfl

theorem schedRun_nextNoteTime (n : Nat) (s : SeqState) :
    (schedRun n s).1.nextNoteTime = s.nextNoteTime + n * noteDuration s := by
  induction n generalizing s with
  | zero => simp [schedRun]
  | succ k ih =>
    rw [schedRun_succ_fst, ih]
    have h1 : noteDuration (nextNote s) = noteDuration s := rfl
    have h2 : (nextNote s).nextNoteTime = s.nextNoteTime + noteDuration s := rfl
    rw [h1, h2]
    push_cast
    ring

/-- **C2**: for a state whose tempo lies in `[60, 180]` and step count in
`[4, 48]`, the step duration used by the scheduler is exactly `60 / (4·tempo)`
seconds, and the first `stepCount` scheduled trigger times are strictly
increasing, consecutive triggers being separated by exactly that duration
(times computed over `ℚ`; the source uses floats with the spec's tolerance). -/
theorem scheduler_trigger_spacing (s : SeqState)
    (h1 : 60 ≤ s.tempo) (h2 : s.tempo ≤ 180) (h3 : 4 ≤ s.stepCount) (h4 : s.stepCount ≤ 48) :
    noteDuration s = 60 / (4 * s.tempo) ∧
      ∀ n : Nat, n + 1 < s.stepCount →
        (schedRun n s).1.nextNoteTime < (schedRun (n + 1) s).1.nextNoteTime ∧
          (schedRun (n + 1) s).1.nextNoteTime - (schedRun n s).1.nextNoteTime
            = 60 / (4 * s.tempo) := by
  have htpos : (0 : ℚ) < s.tempo := by linarith
  have hdur : noteDuration s = 60 / (4 * s.tempo) := by
    unfold noteDuration
    rw [div_div, mul_comm]
  have hpos : 0 < noteDuration s := by
    rw [hdur]
    apply div_pos (by norm_num)
    linarith
  have hdiff : ∀ n : Nat,
      (schedRun (n + 1) s).1.nextNoteTime - (schedRun n s).1.nextNoteTime = noteDuration s := by
    intro n
    rw [schedRun_nextNoteTime, schedRun_nextNoteTime]
    push_cast
    ring
  refine ⟨hdur, fun n _ => ⟨?_, by rw [hdiff n, hdur]⟩⟩
  have h := hdiff n
  linarith

theorem scheduler_trigger_spacing_witness :
    (60 ≤ initSeq.tempo ∧ initSeq.tempo ≤ 180 ∧ 4 ≤ initSeq.stepCount ∧ initSeq.stepCount ≤ 48)
      ∧ noteDuration initSeq = 60 / (4 * initSeq.tempo) :=
  ⟨⟨by norm_num [initSeq], by norm_num [initSeq], by norm_num [initSeq], by norm_num [initSeq]⟩,
    (scheduler_trigger_spacing initSeq (by norm_num [initSeq]) (by norm_num [initSeq])
      (by norm_num [initSeq]) (by norm_num [initSeq])).1⟩

/-! ## Bar-boundary events (C3) -/

/-- The event trace of one complete bar of an `sc`-step pattern: every step's
trigger dispatch in order, then the single `barCompleted` emission — after the
wrap step's own trigger and before the next bar's first trigger. -/
def barTrace (sc : Nat) : List SeqEv :=
  ((List.range sc).map SeqEv.stepTriggered) ++ [SeqEv.barCompleted]

theorem schedRun_succ_snd (n : Nat) (s : SeqState) :
    (schedRun (n + 1) s).2 = (schedStep s).2 ++ (schedRun n (nextNote s)).2 := rfl

theorem schedRun_add_fst (a b : Nat) (s : SeqState) :
    (schedRun (a + b) s).1 = (schedRun b (schedRun a s).1).1 := by
  induction a generalizing s with
  | zero =>
    rw [Nat.zero_add]
    rfl
  | succ k ih =>
    rw [Nat.succ_add, schedRun_succ_fst, ih]
    rfl

theorem schedRun_add_snd (a b : Nat) (s : SeqState) :
    (schedRun (a + b) s).2 = (schedRun a s).2 ++ (schedRun b (schedRun a s).1).2 := by
  induction a generalizing s with
  | zero => simp [schedRun]
  | succ k ih =>
    rw [Nat.succ_add, schedRun_succ_snd, ih, schedRun_succ_snd]
    have h1 : (schedRun (k + 1) s).1 = (schedRun k (nextNote s)).1 := rfl
    rw [h1, List.append_assoc]

theorem schedRun_bar_segment (m : Nat) :
    ∀ s : SeqState, 1 ≤ m → s.currentStep + m = s.stepCount →
      (schedRun m s).2
          = ((List.range' s.currentStep m).map SeqEv.stepTriggered) ++ [SeqEv.barCompleted]
        ∧ (schedRun m s).1.currentStep = 0
        ∧ (schedRun m s).1.stepCount = s.stepCount := by
  induction m with
  | zero =>
    intro s hm _
    omega
  | succ k ih =>
    intro s _ hsum
    by_cases hk : k = 0
    · subst hk
      have hwrap : s.currentStep + 1 ≥ s.stepCount := by omega
      refine ⟨?_, ?_, rfl⟩
      · rw [schedRun_succ_snd]
        show (SeqEv.stepTriggered s.currentStep ::
            (if s.currentStep + 1 ≥ s.stepCount then [SeqEv.barCompleted] else [])) ++ _ = _
        rw [if_pos hwrap]
        simp [schedRun, List.range']
      · show (nextNote s).currentStep = 0
        unfold nextNote
        simp [if_pos hwrap]
    · have hnw : ¬ (s.currentStep + 1 ≥ s.stepCount) := by omega
      have hstep : (nextNote s).currentStep = s.currentStep + 1 := by
        unfold nextNote
        simp [if_neg hnw]
      have hsc : (nextNote s).stepCount = s.stepCount := rfl
      have hih := ih (nextNote s) (by omega) (by rw [hstep, hsc]; omega)
      obtain ⟨ht, hc, hs⟩ := hih
      refine ⟨?_, ?_, ?_⟩
      · rw [schedRun_succ_snd]
        show (SeqEv.stepTriggered s.currentStep ::
            (if s.currentStep + 1 ≥ s.stepCount then [SeqEv.barCompleted] else [])) ++ _ = _
        rw [if_neg hnw, ht, hstep]
        rw [List.range'_succ]
        simp
      · exact hc
      · rw [show (schedRun (k + 1) s).1.stepCount = (schedRun k (nextNote s)).1.stepCount from rfl,
          hs, hsc]

theorem schedRun_one_bar (s : SeqState) (h0 : s.currentStep = 0) (h1 : 1 ≤ s.stepCount) :
    (schedRun s.stepCount s).2 = barTrace s.stepCount
      ∧ (schedRun s.stepCount s).1.currentStep = 0
      ∧ (schedRun s.stepCount s).1.stepCount = s.stepCount := by
  have h := schedRun_bar_segment s.stepCount s h1 (by omega)
  unfold barTrace
  rwa [h0, ← List.range_eq_range'] at h

theorem schedRun_bars (N : Nat) :
    ∀ s : SeqState, s.currentStep = 0 → 1 ≤ s.stepCount →
      (schedRun (s.stepCount * N) s).2 = (List.replicate N (barTrace s.stepCount)).flatten := by
  induction N with
  | zero =>
    intro s _ _
    simp [schedRun]
  | succ k ih =>
    intro s h0 h1
    have hmul : s.stepCount * (k + 1) = s.stepCount + s.stepCount * k := by ring
    rw [hmul, schedRun_add_snd]
    obtain ⟨ht, hc, hsc⟩ := schedRun_one_bar s h0 h1
    have ih2 := ih (schedRun s.stepCount s).1 hc (by rw [hsc]; exact h1)
    rw [hsc] at ih2
    rw [ht, ih2]
    simp [List.replicate_succ]

theorem count_bar_barTrace (sc : Nat) : (barTrace sc).count SeqEv.barCompleted = 1 := by
  unfold barTrace
  rw [List.count_append]
  have h : ((List.range sc).map SeqEv.stepTriggered).count SeqEv.barCompleted = 0 := by
    rw [List.count_eq_zero]
    simp
  rw [h]
  simp

theorem count_bar_join (N sc : Nat) :
    ((List.replicate N (barTrace sc)).flatten).count SeqEv.barCompleted = N := by
  induction N with
  | zero => simp
  | succ k ih =>
    simp [List.replicate_succ, List.count_append, count_bar_barTrace, ih]
    omega

/-- **C3**: starting a bar at step 0, running `stepCount · N` scheduler
iterations produces exactly the `N`-fold repetition of the single-bar trace —
so exactly `N` `barCompleted` events are emitted, one per wrap, each placed
after the wrap step's own trigger dispatch and before the first trigger of the
following bar.  The third conjunct shows the flat iteration sequence is
invariant under any grouping of iterations into poll ticks, so jitter in the
25 ms driver cannot skip or duplicate a bar event. -/
theorem bar_boundary_events (s : SeqState) (N : Nat)
    (h0 : s.currentStep = 0) (h4 : 4 ≤ s.stepCount) :
    (schedRun (s.stepCount * N) s).2 = (List.replicate N (barTrace s.stepCount)).flatten
      ∧ (schedRun (s.stepCount * N) s).2.count SeqEv.barCompleted = N
      ∧ ∀ a b : Nat, (schedRun (a + b) s).2
          = (schedRun a s).2 ++ (schedRun b (schedRun a s).1).2 := by
  have h1 : 1 ≤ s.stepCount := by omega
  have ht := schedRun_bars N s h0 h1
  exact ⟨ht, by rw [ht]; exact count_bar_join N s.stepCount,
    fun a b => schedRun_add_snd a b s⟩

theorem bar_boundary_events_witness :
    initSeq.currentStep = 0 ∧ 4 ≤ initSeq.stepCount
      ∧ (schedRun (initSeq.stepCount * 2) initSeq).2.count SeqEv.barCompleted = 2 :=
  ⟨rfl, by decide, (bar_boundary_events initSeq 2 rfl (by decide)).2.1⟩


/-! ## Transport reachability and pause / stop / play (C4)

The public operations that can touch the transport state, applied from the
module's initial state.  The scheduler `tick` only runs while playing, since
`play` installs the interval driver and `pause`/`stop` clear it. -/

/-- `Sequencer.clearPattern` zeroes the instrument and loop tracks of the
live pattern; it never touches the playback position fields. -/
def clearTracksMap (instruments : List String) (tracks : List (String × Track)) :
    List (String × Track) :=
  tracks.map (fun tr =>
    if instruments.contains tr.1 ∨ loopIds.contains tr.1 then
      (tr.1, List.replicate tr.2.length 0)
    else tr)

def clearPattern (instruments : List String) (s : SeqState) : SeqState :=
  match s.currentPattern with
  | none => s
  | some p =>
    { s with currentPattern := some ({ p with tracks := clearTracksMap instruments p.tracks }) }

inductive SeqOp where
  | playOp (now : ℚ)
  | pauseOp
  | stopOp
  | tick
  | setTempoOp (t : ℚ)
  | setStepCountOp (n : Nat)
  | setTimeSignatureOp (ts : String)
  | toggleStepOp (instrument : String) (step : Nat)
  | setStepOp (instrument : String) (step : Nat) (value : ℚ)
  | loadPatternOp (instruments : List String) (p : Option PatternData)
  | importPatternOp (instruments : List String) (d : ImportData)
  | clearPatternOp (instruments : List String)

def applySeqOp (s : SeqState) : SeqOp → SeqState
  | .playOp now => play now s
  | .pauseOp => pause s
  | .stopOp => stop s
  | .tick => if s.isPlaying then nextNote s else s
  | .setTempoOp t => setTempo t s
  | .setStepCountOp n => setStepCount n s
  | .setTimeSignatureOp ts => setTimeSignature ts s
  | .toggleStepOp instr st => toggleStep instr st s
  | .setStepOp instr st v => setStep instr st v s
  | .loadPatternOp instruments p => loadPattern instruments p s
  | .importPatternOp instruments d => importPattern instruments d s
  | .clearPatternOp instruments => clearPattern instruments s

def runSeqOps (ops : List SeqOp) : SeqState :=
  ops.foldl applySeqOp initSeq

/-- Invariant of every reachable transport state: when neither playing nor
paused, the position has been reset to 0 (only `pause` leaves a nonzero
position behind, and it sets the paused flag). -/
def transportInv (s : SeqState) : Prop :=
  s.isPlaying = true ∨ s.isPaused = true ∨ s.currentStep = 0

theorem transportInv_of_fields (s u : SeqState) (h : transportInv s)
    (h1 : u.isPlaying = s.isPlaying) (h2 : u.isPaused = s.isPaused)
    (h3 : u.currentStep = s.currentStep) : transportInv u := by
  unfold transportInv at h ⊢
  rw [h1, h2, h3]
  exact h

theorem initializeLoopTracksS_transport_fields (s : SeqState) :
    (initializeLoopTracksS s).isPlaying = s.isPlaying
      ∧ (initializeLoopTracksS s).isPaused = s.isPaused
      ∧ (initializeLoopTracksS s).currentStep = s.currentStep := by
  unfold initializeLoopTracksS
  split <;> exact ⟨rfl, rfl, rfl⟩

theorem loadPattern_transport_fields (instruments : List String) (p : Option PatternData)
    (s : SeqState) :
    (loadPattern instruments p s).isPlaying = s.isPlaying
      ∧ (loadPattern instruments p s).isPaused = s.isPaused
      ∧ (loadPattern instruments p s).currentStep = s.currentStep := by
  unfold loadPattern
  cases p with
  | none => exact initializeLoopTracksS_transport_fields _
  | some q => exact initializeLoopTracksS_transport_fields _

theorem importPattern_transport_fields (instruments : List String) (d : ImportData)
    (s : SeqState) :
    (importPattern instruments d s).isPlaying = s.isPlaying
      ∧ (importPattern instruments d s).isPaused = s.isPaused
      ∧ (importPattern instruments d s).currentStep = s.currentStep := by
  have hst1 : ∀ u : SeqState,
      (importPatternStage1 instruments d.pattern u).isPlaying = u.isPlaying
        ∧ (importPatternStage1 instruments d.pattern u).isPaused = u.isPaused
        ∧ (importPatternStage1 instruments d.pattern u).currentStep = u.currentStep := by
    intro u
    unfold importPatternStage1
    cases d.pattern with
    | none => exact ⟨rfl, rfl, rfl⟩
    | some p => exact initializeLoopTracksS_transport_fields _
  have hst2 : ∀ u : SeqState,
      (importPatternStage2 d.tempo u).isPlaying = u.isPlaying
        ∧ (importPatternStage2 d.tempo u).isPaused = u.isPaused
        ∧ (importPatternStage2 d.tempo u).currentStep = u.currentStep := by
    intro u
    unfold importPatternStage2
    cases d.tempo with
    | none => exact ⟨rfl, rfl, rfl⟩
    | some t =>
      dsimp only
      split_ifs <;> exact ⟨rfl, rfl, rfl⟩
  have hst3 : ∀ u : SeqState,
      (importPatternStage3 d.timeSignature u).isPlaying = u.isPlaying
        ∧ (importPatternStage3 d.timeSignature u).isPaused = u.isPaused
        ∧ (importPatternStage3 d.timeSignature u).currentStep = u.currentStep := by
    intro u
    unfold importPatternStage3
    cases d.timeSignature with
    | none => exact ⟨rfl, rfl, rfl⟩
    | some ts =>
      dsimp only
      split_ifs <;> exact ⟨rfl, rfl, rfl⟩
  have hst4 : ∀ u : SeqState,
      (importPatternStage4 d.stepCount u).isPlaying = u.isPlaying
        ∧ (importPatternStage4 d.stepCount u).isPaused = u.isPaused
        ∧ (importPatternStage4 d.stepCount u).currentStep = u.currentStep := by
    intro u
    unfold importPatternStage4
    cases d.stepCount with
    | none => exact ⟨rfl, rfl, rfl⟩
    | some n => exact ⟨rfl, rfl, rfl⟩
  unfold importPattern
  refine ⟨?_, ?_, ?_⟩
  · rw [(hst4 _).1, (hst3 _).1, (hst2 _).1, (hst1 _).1]
  · rw [(hst4 _).2.1, (hst3 _).2.1, (hst2 _).2.1, (hst1 _).2.1]
  · rw [(hst4 _).2.2, (hst3 _).2.2, (hst2 _).2.2, (hst1 _).2.2]

theorem applySeqOp_inv (s : SeqState) (op : SeqOp) (h : transportInv s) :
    transportInv (applySeqOp s op) := by
  cases op with
  | playOp now =>
    show transportInv (play now s)
    by_cases hp : s.isPlaying = true
    · unfold play
      rw [if_pos hp]
      exact h
    · left
      unfold play
      rw [if_neg hp]
  | pauseOp =>
    show transportInv (pause s)
    unfold pause
    by_cases hp : s.isPlaying = true
    · rw [if_neg (by simp [hp])]
      right
      left
      rfl
    · rw [if_pos (by simp [Bool.eq_false_iff.mpr hp])]
      exact h
  | stopOp =>
    show transportInv (stop s)
    right
    right
    rfl
  | tick =>
    show transportInv (if s.isPlaying = true then nextNote s else s)
    by_cases hp : s.isPlaying = true
    · rw [if_pos hp]
      left
      exact hp
    · rw [if_neg hp]
      exact h
  | setTempoOp t => exact transportInv_of_fields s _ h rfl rfl rfl
  | setStepCountOp n => exact transportInv_of_fields s _ h rfl rfl rfl
  | setTimeSignatureOp ts =>
    show transportInv (setTimeSignature ts s)
    unfold setTimeSignature
    split
    · exact transportInv_of_fields s _ h rfl rfl rfl
    · exact h
  | toggleStepOp instr st =>
    show transportInv (toggleStep instr st s)
    unfold toggleStep
    split
    · exact h
    · split
      · exact h
      · exact transportInv_of_fields s _ h rfl rfl rfl
  | setStepOp instr st v =>
    show transportInv (setStep instr st v s)
    unfold setStep
    split
    · exact h
    · split
      · exact h
      · exact transportInv_of_fields s _ h rfl rfl rfl
  | loadPatternOp instruments p =>
    show transportInv (loadPattern instruments p s)
    obtain ⟨h1, h2, h3⟩ := loadPattern_transport_fields instruments p s
    exact transportInv_of_fields s _ h h1 h2 h3
  | importPatternOp instruments d =>
    show transportInv (importPattern instruments d s)
    obtain ⟨h1, h2, h3⟩ := importPattern_transport_fields instruments d s
    exact transportInv_of_fields s _ h h1 h2 h3
  | clearPatternOp instruments =>
    show transportInv (clearPattern instruments s)
    unfold clearPattern
    split
    · exact h
    · exact transportInv_of_fields s _ h rfl rfl rfl

theorem runSeqOps_inv (ops : List SeqOp) : transportInv (runSeqOps ops) := by
  have hgen : ∀ (l : List SeqOp) (s : SeqState), transportInv s →
      transportInv (l.foldl applySeqOp s) := by
    intro l
    induction l with
    | nil => intro s h; exact h
    | cons op rest ih =>
      intro s h
      exact ih (applySeqOp s op) (applySeqOp_inv s op h)
  exact hgen ops initSeq (Or.inr (Or.inr rfl))

/-- **C4**: in every reachable transport state, `pause()` followed by
`play()` resumes at the `currentStep` that was current at the pause moment,
`stop()` followed by `play()` always restarts at step 0, and `play()` is a
complete no-op when already playing. -/
theorem pause_resume_stop_restart (ops : List SeqOp) (now : ℚ) :
    (play now (pause (runSeqOps ops))).currentStep = (runSeqOps ops).currentStep
      ∧ (play now (stop (runSeqOps ops))).currentStep = 0
      ∧ ((runSeqOps ops).isPlaying = true → play now (runSeqOps ops) = runSeqOps ops) := by
  have hinv := runSeqOps_inv ops
  set s := runSeqOps ops with hs
  refine ⟨?_, ?_, ?_⟩
  · by_cases hp : s.isPlaying = true
    · simp [pause, play, hp]
    · have hpf : s.isPlaying = false := Bool.eq_false_iff.mpr hp
      rcases hinv with h | h | h
      · exact absurd h hp
      · simp [pause, play, hpf, h]
      · cases hq : s.isPaused <;> simp [pause, play, hpf, hq, h]
  · by_cases hp : s.isPlaying = true
    · simp [stop, pause, play, hp]
    · have hpf : s.isPlaying = false := Bool.eq_false_iff.mpr hp
      simp [stop, pause, play, hpf]
  · intro hp
    show play now s = s
    unfold play
    rw [if_pos hp]

theorem pause_resume_stop_restart_witness :
    (play 5 (pause (runSeqOps [SeqOp.playOp 0, SeqOp.tick]))).currentStep
        = (runSeqOps [SeqOp.playOp 0, SeqOp.tick]).currentStep
      ∧ (play 5 (stop (runSeqOps [SeqOp.playOp 0, SeqOp.tick]))).currentStep = 0 :=
  ⟨(pause_resume_stop_restart [SeqOp.playOp 0, SeqOp.tick] 5).1,
    (pause_resume_stop_restart [SeqOp.playOp 0, SeqOp.tick] 5).2.1⟩

/-! ## Step mutation bounds (C7), resize round trip (C8), tempo range (C9) -/

theorem findTrack_updateTrack (tracks : List (String × Track)) (id : String) (arr : Track)
    (h : (findTrack tracks id).isSome) :
    findTrack (updateTrack tracks id arr) id = some arr := by
  induction tracks with
  | nil => simp [findTrack] at h
  | cons tr rest ih =>
    by_cases hh : (tr.1 == id) = true
    · unfold updateTrack
      rw [List.map_cons, if_pos hh]
      unfold findTrack
      rw [@List.find?_cons_of_pos _ (fun tr => tr.1 == id) (tr.1, arr) _ hh]
      rfl
    · unfold updateTrack
      rw [List.map_cons, if_neg hh]
      unfold findTrack at h ⊢
      rw [@List.find?_cons_of_neg _ (fun tr => tr.1 == id) tr _ hh] at h ⊢
      exact ih h

theorem writeStep_getD (arr : Track) (i : Nat) (v : ℚ) :
    (writeStep arr i v).getD i 0 = v := by
  unfold writeStep
  split_ifs with h
  · rw [List.getD_eq_getElem?_getD, List.getElem?_set_self h]
    rfl
  · have hle : arr.length ≤ i := Nat.le_of_not_lt h
    rw [List.getD_eq_getElem?_getD, List.append_assoc, List.getElem?_append_right hle,
      List.getElem?_append_right (by simp)]
    simp

theorem toggleStep_state (instrument : String) (step : Nat) (s : SeqState)
    (p : PatternData) (arr : Track)
    (hp : s.currentPattern = some p) (ht : findTrack p.tracks instrument = some arr) :
    toggleStep instrument step s = { s with currentPattern := some ({ p with tracks := updateTrack p.tracks instrument (writeStep arr step (if arr.getD step 0 ≠ 0 then 0 else 1)) }) } := by
  unfold toggleStep
  rw [hp]
  dsimp only
  rw [ht]

theorem setStep_state (instrument : String) (step : Nat) (value : ℚ) (s : SeqState)
    (p : PatternData) (arr : Track)
    (hp : s.currentPattern = some p) (ht : findTrack p.tracks instrument = some arr) :
    setStep instrument step value s = { s with currentPattern := some ({ p with tracks := updateTrack p.tracks instrument (writeStep arr step (if value ≠ 0 then 1 else 0)) }) } := by
  unfold setStep
  rw [hp]
  dsimp only
  rw [ht]

theorem getStep_after_write (instrument : String) (step : Nat) (s : SeqState)
    (p : PatternData) (arr : Track) (w : Track)
    (ht : findTrack p.tracks instrument = some arr) :
    getStep instrument step { s with currentPattern := some ({ p with tracks := updateTrack p.tracks instrument w }) } = w.getD step 0 := by
  have hfind : findTrack (updateTrack p.tracks instrument w) instrument = some w :=
    findTrack_updateTrack p.tracks instrument w (by rw [ht]; rfl)
  unfold getStep
  dsimp only
  rw [hfind]

/-- Concrete sequencer state used in the C7/C8 counterexamples and witnesses:
a 48-step kick track with no hits, active `stepCount` 16. -/
def exTrack48 : Track := List.replicate 48 0

def exSeqPattern : PatternData :=
  { name := "Rock", tempo := 120, tracks := [("kick", exTrack48)] }

def exSeqState : SeqState :=
  { currentPattern := some exSeqPattern, tempo := 120, timeSignature := "4/4",
    stepCount := 16, currentStep := 0, isPlaying := false, isPaused := false, nextNoteTime := 0 }

/-- **C7 counterexample**: `toggleStep` does not reject a step index outside
`[0, stepCount)` — toggling step 20 of a 16-step pattern mutates the track at
index 20 (it flips 0 to 1), so the state is not left unchanged. -/
theorem step_mutation_rejects_oob_counterexample :
    exSeqState.stepCount ≤ 20
      ∧ getStep "kick" 20 exSeqState = 0
      ∧ getStep "kick" 20 (toggleStep "kick" 20 exSeqState) = 1 := by
  refine ⟨by decide, rfl, ?_⟩
  rw [toggleStep_state "kick" 20 exSeqState exSeqPattern exTrack48 rfl rfl,
    getStep_after_write "kick" 20 _ exSeqPattern exTrack48 _ rfl,
    writeStep_getD]
  norm_num [exTrack48]

/-- **C7 as amended**: `toggleStep` and `setStep` check only that a pattern is
loaded and that the track id exists — in those failure cases they are silent
no-ops.  They never bound-check the step index: for an existing track the
write lands at the given index (also when `stepCount ≤ step`), flipping
resp. normalising the value, and no error is raised (the functions are
total). -/
theorem step_mutation_no_bounds_check (instrument : String) (step : Nat) (value : ℚ)
    (s : SeqState) :
    (s.currentPattern = none →
        toggleStep instrument step s = s ∧ setStep instrument step value s = s)
      ∧ (∀ p, s.currentPattern = some p → findTrack p.tracks instrument = none →
          toggleStep instrument step s = s ∧ setStep instrument step value s = s)
      ∧ (∀ p arr, s.currentPattern = some p → findTrack p.tracks instrument = some arr →
          getStep instrument step (toggleStep instrument step s)
              = (if arr.getD step 0 ≠ 0 then 0 else 1)
            ∧ getStep instrument step (setStep instrument step value s)
              = (if value ≠ 0 then 1 else 0)) := by
  refine ⟨?_, ?_, ?_⟩
  · intro hp
    constructor
    · unfold toggleStep
      rw [hp]
    · unfold setStep
      rw [hp]
  · intro p hp ht
    constructor
    · unfold toggleStep
      rw [hp]
      dsimp only
      rw [ht]
    · unfold setStep
      rw [hp]
      dsimp only
      rw [ht]
  · intro p arr hp ht
    constructor
    · rw [toggleStep_state instrument step s p arr hp ht,
        getStep_after_write instrument step s p arr _ ht, writeStep_getD]
    · rw [setStep_state instrument step value s p arr hp ht,
        getStep_after_write instrument step s p arr _ ht, writeStep_getD]

theorem step_mutation_no_bounds_check_witness :
    exSeqState.currentPattern = some exSeqPattern
      ∧ findTrack exSeqPattern.tracks "kick" = some exTrack48
      ∧ getStep "kick" 20 (toggleStep "kick" 20 exSeqState)
          = (if exTrack48.getD 20 0 ≠ 0 then 0 else 1) :=
  ⟨rfl, rfl,
    ((step_mutation_no_bounds_check "kick" 20 0 exSeqState).2.2 exSeqPattern exTrack48
      rfl rfl).1⟩

/-- **C8**: `setStepCount` only rewrites the clamped `stepCount` field and
never touches the track arrays, so resizing 16 → 8 → 16 leaves every track
value — in particular the hits at steps 8–15 — exactly as it was. -/
theorem stepCount_resize_round_trip (s : SeqState) (h : s.stepCount = 16) :
    (setStepCount 16 (setStepCount 8 s)).stepCount = 16
      ∧ (setStepCount 16 (setStepCount 8 s)).currentPattern = s.currentPattern
      ∧ ∀ instrument step,
          getStep instrument step (setStepCount 16 (setStepCount 8 s))
            = getStep instrument step s := by
  exact ⟨rfl, rfl, fun instrument step => rfl⟩

theorem stepCount_resize_round_trip_witness :
    exSeqState.stepCount = 16
      ∧ getStep "kick" 9 (setStepCount 16 (setStepCount 8 exSeqState))
          = getStep "kick" 9 exSeqState :=
  ⟨rfl, (stepCount_resize_round_trip exSeqState rfl).2.2 "kick" 9⟩

/-- Session data carrying an out-of-range tempo, as a user-imported session
file may. -/
def exImportTempo300 : ImportData :=
  { pattern := none, tempo := some 300, timeSignature := none, stepCount := none }

/-- **C9 counterexample**: `importPattern` assigns the imported tempo without
clamping, so after importing `{tempo: 300}` the observed tempo is 300, outside
`[60, 180]`. -/
theorem tempo_range_counterexample :
    getTempo (importPattern [] exImportTempo300 initSeq) = 300
      ∧ ¬ getTempo (importPattern [] exImportTempo300 initSeq) ≤ 180 := by
  have h : getTempo (importPattern [] exImportTempo300 initSeq) = 300 := by
    unfold importPattern exImportTempo300 importPatternStage1 importPatternStage2
      importPatternStage3 importPatternStage4 getTempo
    norm_num
  exact ⟨h, by rw [h]; norm_num⟩

theorem initializeLoopTracksS_tempo (s : SeqState) :
    (initializeLoopTracksS s).tempo = s.tempo := by
  unfold initializeLoopTracksS
  split <;> rfl

theorem importPatternStage3_tempo (dts : Option String) (u : SeqState) :
    (importPatternStage3 dts u).tempo = u.tempo := by
  unfold importPatternStage3
  cases dts with
  | none => rfl
  | some ts =>
    dsimp only
    split_ifs <;> rfl

theorem importPatternStage4_tempo (dsc : Option Nat) (u : SeqState) :
    (importPatternStage4 dsc u).tempo = u.tempo := by
  unfold importPatternStage4
  cases dsc with
  | none => rfl
  | some n => rfl

/-- **C9 as amended**: only `setTempo` enforces the `[60, 180]` clamp; after
any `setTempo` call the tempo is in range, but `loadPattern` adopts the loaded
pattern's own tempo and `importPattern` adopts the imported (truthy) tempo
value, both without clamping. -/
theorem tempo_clamped_only_by_setTempo (t : ℚ) (s : SeqState) :
    (60 ≤ (setTempo t s).tempo ∧ (setTempo t s).tempo ≤ 180)
      ∧ (∀ instruments p, (loadPattern instruments (some p) s).tempo = p.tempo)
      ∧ (∀ instruments d t₀, d.tempo = some t₀ → t₀ ≠ 0 →
          (importPattern instruments d s).tempo = t₀) := by
  refine ⟨⟨le_max_left 60 _, max_le (by norm_num) (min_le_left 180 t)⟩, ?_, ?_⟩
  · intro instruments p
    unfold loadPattern
    rw [initializeLoopTracksS_tempo]
  · intro instruments d t₀ hd ht₀
    unfold importPattern
    rw [importPatternStage4_tempo, importPatternStage3_tempo]
    unfold importPatternStage2
    rw [hd]
    dsimp only
    rw [if_pos ht₀]

theorem tempo_clamped_only_by_setTempo_witness :
    (60 ≤ (setTempo 300 initSeq).tempo ∧ (setTempo 300 initSeq).tempo ≤ 180)
      ∧ (importPattern [] exImportTempo300 initSeq).tempo = 300 :=
  ⟨(tempo_clamped_only_by_setTempo 300 initSeq).1,
    (tempo_clamped_only_by_setTempo 300 initSeq).2.2 [] exImportTempo300 300 rfl
      (by norm_num)⟩

/-! ## SongMode pattern bank (C5, C6, C10) -/

/-- Events of the `SongMode` emitter relevant to the pattern-bank claims. -/
inductive SongEv where
  | patternSlotUpdated (index : Nat)
  | patternSlotCleared (index : Nat)
  | patternSwitchQueued (index : Nat)
  | patternSwitched (index : Nat)
deriving Repr, DecidableEq

/-- Module state of `SongMode`'s pattern bank together with the `Sequencer`
state it drives and the loop-pedal pattern-track snapshot it swaps
(`LoopPedal.exportPatternTracks` / `importPatternTracks`, opaque data). -/
structure SongState where
  patternBank : List PatternSlot
  currentPatternIndex : Nat
  queuedPatternIndex : Option Nat
  seq : SeqState
  liveLoopTracks : Option String
deriving Repr, DecidableEq

/-- JS `x || fallback` for an optional numeric argument (`0` is falsy). -/
def orElseQ (x : Option ℚ) (fallback : ℚ) : ℚ :=
  match x with
  | none => fallback
  | some t => if t = 0 then fallback else t

/-- JS `x || fallback` for an optional string argument (`""` is falsy). -/
def orElseS (x : Option String) (fallback : String) : String :=
  match x with
  | none => fallback
  | some v => if v = "" then fallback else v

/-- JS `x || fallback` for an optional count argument (`0` is falsy). -/
def orElseN (x : Option Nat) (fallback : Nat) : Nat :=
  match x with
  | none => fallback
  | some n => if n = 0 then fallback else n

/-- `SongMode.loadPatternToSlot`: deep-copy a pattern (with the currently
exported live loop tracks) into slot `index`, defaulting tempo, time
signature and step count to the sequencer's current values, preserving the
slot's repeat count (`repeats || 1`) and clearing `isEmpty`. -/
def loadPatternToSlot (index : Nat) (pattern : PatternData) (tempo : Option ℚ)
    (timeSignature : Option String) (stepCount : Option Nat) (s : SongState) :
    SongState × List SongEv :=
  if index ≥ 10 then (s, [])
  else
    let old := s.patternBank.getD index (blankSlot index)
    let slot : PatternSlot :=
      { index := index
        name := if pattern.name = "" then "Pattern " ++ toString (index + 1) else pattern.name
        pattern := some pattern
        tempo := orElseQ tempo s.seq.tempo
        timeSignature := orElseS timeSignature s.seq.timeSignature
        stepCount := orElseN stepCount s.seq.stepCount
        repeats := if old.repeats = 0 then 1 else old.repeats
        loopTracks := s.liveLoopTracks
        isEmpty := false }
    ({ s with patternBank := s.patternBank.set index slot },
      [SongEv.patternSlotUpdated index])

/-- `SongMode.saveCurrentPattern`: snapshot the live pattern and settings into
the current slot.  (A null live pattern would fault in the source before the
store happens; the `getD` default is never reached in the claims below.) -/
def saveCurrentPattern (s : SongState) : SongState × List SongEv :=
  loadPatternToSlot s.currentPatternIndex
    (s.seq.currentPattern.getD (emptyPattern [] s.seq.tempo))
    (some s.seq.tempo) (some s.seq.timeSignature) (some s.seq.stepCount) s

/-- `SongMode.applyPatternSwitch`: load slot `index` into the sequencer and
make it the current slot.  A slot flagged empty (or with no pattern) is first
auto-populated from the live pattern; note the source afterwards still reads
`slot.loopTracks` from the stale pre-populate slot object. -/
def applyPatternSwitch (instruments : List String) (index : Nat) (s : SongState) :
    SongState × List SongEv :=
  if h : index < s.patternBank.length then
    let slot := s.patternBank.getD index (blankSlot index)
    if slot.isEmpty ∨ slot.pattern = none then
      let r := loadPatternToSlot index (s.seq.currentPattern.getD (emptyPattern [] s.seq.tempo)) (some s.seq.tempo) (some s.seq.timeSignature) (some s.seq.stepCount) s
      let s₁ := r.1
      let updated := s₁.patternBank.getD index (blankSlot index)
      let seq₁ := setStepCount updated.stepCount (setTimeSignature updated.timeSignature (setTempo updated.tempo (loadPattern instruments updated.pattern s₁.seq)))
      ({ s₁ with seq := seq₁, liveLoopTracks := slot.loopTracks, currentPatternIndex := index },
        r.2 ++ [SongEv.patternSwitched index])
    else
      let seq₁ := setStepCount slot.stepCount (setTimeSignature slot.timeSignature (setTempo slot.tempo (loadPattern instruments slot.pattern s.seq)))
      ({ s with seq := seq₁, liveLoopTracks := slot.loopTracks, currentPatternIndex := index },
        [SongEv.patternSwitched index])
  else (s, [])

/-- `SongMode.switchToPattern`: rejects an out-of-range index and is a no-op
on the currently active slot; otherwise saves the live pattern, then switches
immediately when the sequencer is stopped, or queues the request (emitting
`patternSwitchQueued`) when playing. -/
def switchToPattern (instruments : List String) (index : Nat) (s : SongState) :
    SongState × List SongEv :=
  if index ≥ 10 then (s, [])
  else if index = s.currentPatternIndex then (s, [])
  else
    let r := saveCurrentPattern s
    let s₁ := r.1
    if s₁.seq.isPlaying then
      ({ s₁ with queuedPatternIndex := some index },
        r.2 ++ [SongEv.patternSwitchQueued index])
    else
      let r₂ := applyPatternSwitch instruments index s₁
      (r₂.1, r.2 ++ r₂.2)

/-- The `setTimeout` callback armed by a queued switch for `index`, firing at
the computed next-bar time: it applies the switch only when the queued index
has not been superseded by a later request (`queuedPatternIndex === index`). -/
def fireQueuedSwitch (instruments : List String) (index : Nat) (s : SongState) :
    SongState × List SongEv :=
  if s.queuedPatternIndex = some index then
    let r := applyPatternSwitch instruments index s
    ({ r.1 with queuedPatternIndex := none }, r.2)
  else (s, [])

/-- `SongMode.clearPatternSlot`: overwrite the slot with the blank slot —
`pattern: null`, tempo 120, `'4/4'`, 16 steps, `repeats: 1`, no loop tracks,
`isEmpty: true`. -/
def clearPatternSlot (index : Nat) (s : SongState) : SongState × List SongEv :=
  if index ≥ 10 then (s, [])
  else
    ({ s with patternBank := s.patternBank.set index (blankSlot index) },
      [SongEv.patternSlotCleared index])


/-! ### Field-preservation lemmas for the bank operations -/

theorem loadPatternToSlot_fields (index : Nat) (pattern : PatternData) (t : Option ℚ)
    (ts : Option String) (n : Option Nat) (s : SongState) :
    (loadPatternToSlot index pattern t ts n s).1.currentPatternIndex = s.currentPatternIndex
      ∧ (loadPatternToSlot index pattern t ts n s).1.queuedPatternIndex = s.queuedPatternIndex
      ∧ (loadPatternToSlot index pattern t ts n s).1.seq = s.seq
      ∧ (loadPatternToSlot index pattern t ts n s).1.patternBank.length
          = s.patternBank.length := by
  unfold loadPatternToSlot
  by_cases h : index ≥ 10
  · rw [if_pos h]
    exact ⟨rfl, rfl, rfl, rfl⟩
  · rw [if_neg h]
    exact ⟨rfl, rfl, rfl, by simp⟩

theorem saveCurrentPattern_fields (s : SongState) :
    (saveCurrentPattern s).1.currentPatternIndex = s.currentPatternIndex
      ∧ (saveCurrentPattern s).1.queuedPatternIndex = s.queuedPatternIndex
      ∧ (saveCurrentPattern s).1.seq = s.seq
      ∧ (saveCurrentPattern s).1.patternBank.length = s.patternBank.length := by
  unfold saveCurrentPattern
  exact loadPatternToSlot_fields _ _ _ _ _ s

theorem setTimeSignature_isPlaying (ts : String) (v : SeqState) :
    (setTimeSignature ts v).isPlaying = v.isPlaying := by
  unfold setTimeSignature
  split_ifs <;> rfl

/-- The `Sequencer.loadPattern` / `setTempo` / `setTimeSignature` /
`setStepCount` chain run by `applyPatternSwitch` never touches `isPlaying`. -/
theorem switch_seq_isPlaying (instruments : List String) (p : Option PatternData)
    (t : ℚ) (ts : String) (n : Nat) (u : SeqState) :
    (setStepCount n (setTimeSignature ts (setTempo t (loadPattern instruments p u)))).isPlaying
      = u.isPlaying := by
  show (setTimeSignature ts (setTempo t (loadPattern instruments p u))).isPlaying = u.isPlaying
  rw [setTimeSignature_isPlaying]
  show (loadPattern instruments p u).isPlaying = u.isPlaying
  exact (loadPattern_transport_fields instruments p u).1

theorem applyPatternSwitch_fields (instruments : List String) (index : Nat) (s : SongState)
    (h : index < s.patternBank.length) :
    (applyPatternSwitch instruments index s).1.currentPatternIndex = index
      ∧ (applyPatternSwitch instruments index s).1.queuedPatternIndex = s.queuedPatternIndex
      ∧ (applyPatternSwitch instruments index s).1.patternBank.length = s.patternBank.length
      ∧ (applyPatternSwitch instruments index s).1.seq.isPlaying = s.seq.isPlaying := by
  unfold applyPatternSwitch
  rw [dif_pos h]
  dsimp only
  obtain ⟨f1, f2, f3, f4⟩ := loadPatternToSlot_fields index
    (s.seq.currentPattern.getD (emptyPattern [] s.seq.tempo)) (some s.seq.tempo)
    (some s.seq.timeSignature) (some s.seq.stepCount) s
  split_ifs with hemp
  · refine ⟨rfl, f2, f4, ?_⟩
    rw [switch_seq_isPlaying, f3]
  · exact ⟨rfl, rfl, rfl, switch_seq_isPlaying instruments _ _ _ _ s.seq⟩

/-- While the sequencer is playing, a valid non-current `switchToPattern`
saves the live pattern and only records the queued index. -/
theorem switchToPattern_playing (instruments : List String) (index : Nat) (s : SongState)
    (hi : index < 10) (hne : index ≠ s.currentPatternIndex)
    (hplay : s.seq.isPlaying = true) :
    (switchToPattern instruments index s).1 = { (saveCurrentPattern s).1 with queuedPatternIndex := some index } := by
  unfold switchToPattern
  rw [if_neg (by omega : ¬ index ≥ 10), if_neg hne]
  dsimp only
  rw [if_pos (by rw [(saveCurrentPattern_fields s).2.2.1]; exact hplay)]

/-- **C10**: `switchToPattern` called with the currently active slot index
returns immediately as a complete no-op — the state (bank, queue, live
pattern) is unchanged and no event (slot-updated, queued or switched) is
emitted, whether or not the transport is playing. -/
theorem switchToPattern_same_index_noop (instruments : List String) (index : Nat)
    (s : SongState) (h : index = s.currentPatternIndex) :
    switchToPattern instruments index s = (s, []) := by
  unfold switchToPattern
  by_cases h1 : index ≥ 10
  · rw [if_pos h1]
  · rw [if_neg h1, if_pos h]

/-- Concrete pattern-bank state: ten blank slots, slot 0 active, sequencer
playing the example pattern. -/
def exSongState : SongState :=
  { patternBank := (List.range 10).map blankSlot
    currentPatternIndex := 0
    queuedPatternIndex := none
    seq := { exSeqState with isPlaying := true }
    liveLoopTracks := none }

theorem switchToPattern_same_index_noop_witness :
    (0 : Nat) = exSongState.currentPatternIndex
      ∧ switchToPattern [] 0 exSongState = (exSongState, []) :=
  ⟨rfl, switchToPattern_same_index_noop [] 0 exSongState rfl⟩

/-- Pattern bank with a populated slot 3 (`repeats = 5`) used to exhibit what
`clearPatternSlot` really does. -/
def exSongStateC6 : SongState :=
  { patternBank := (List.range 10).map (fun i =>
      if i = 3 then
        { index := 3, name := "Verse", pattern := some exSeqPattern, tempo := 140,
          timeSignature := "4/4", stepCount := 16, repeats := 5, loopTracks := none,
          isEmpty := false }
      else blankSlot i)
    currentPatternIndex := 0
    queuedPatternIndex := none
    seq := exSeqState
    liveLoopTracks := none }

/-- **C6 counterexample**: clearing slot 3 — which held a pattern with
`repeats = 5` — leaves `pattern = null` rather than a fresh all-zero pattern,
and resets `repeats` to 1 instead of preserving it. -/
theorem clearSlot_counterexample :
    (exSongStateC6.patternBank.getD 3 (blankSlot 3)).repeats = 5
      ∧ ((clearPatternSlot 3 exSongStateC6).1.patternBank.getD 3 (blankSlot 3)).pattern = none
      ∧ ((clearPatternSlot 3 exSongStateC6).1.patternBank.getD 3 (blankSlot 3)).repeats = 1 :=
  ⟨rfl, rfl, rfl⟩

/-- **C6 as amended**: `clearSlot(index)` on a valid index rewrites the slot
to the blank slot — `pattern = null` (not a fresh pattern object), default
tempo 120 and metadata, `isEmpty = true`, and `repeats` reset to 1 regardless
of its previous value — leaving every other slot untouched. -/
theorem clearSlot_resets_slot (index : Nat) (s : SongState) (h : index < 10)
    (hlen : s.patternBank.length = 10) :
    (clearPatternSlot index s).1.patternBank.getD index (blankSlot index) = blankSlot index
      ∧ (∀ j, j ≠ index →
          (clearPatternSlot index s).1.patternBank.getD j (blankSlot j)
            = s.patternBank.getD j (blankSlot j))
      ∧ (clearPatternSlot index s).2 = [SongEv.patternSlotCleared index] := by
  unfold clearPatternSlot
  rw [if_neg (by omega : ¬ index ≥ 10)]
  dsimp only
  refine ⟨?_, ?_, rfl⟩
  · rw [List.getD_eq_getElem?_getD, List.getElem?_set_self (by omega)]
    rfl
  · intro j hj
    rw [List.getD_eq_getElem?_getD, List.getElem?_set_ne (fun he => hj he.symm),
      ← List.getD_eq_getElem?_getD]

theorem clearSlot_resets_slot_witness :
    (3 : Nat) < 10 ∧ exSongStateC6.patternBank.length = 10
      ∧ (clearPatternSlot 3 exSongStateC6).1.patternBank.getD 3 (blankSlot 3) = blankSlot 3 :=
  ⟨by decide, rfl, (clearSlot_resets_slot 3 exSongStateC6 (by decide) rfl).1⟩

/-- **C5**: for a valid slot index, a switch requested while stopped takes
effect synchronously — the active slot index equals the request when the call
returns; a switch requested while playing leaves the active slot untouched
and only queues the index; and when a second request `j` is issued before the
queued bar boundary, the earlier request's timer finds itself superseded and
changes nothing, while the later timer lands `j` — last request wins. -/
theorem quantized_slot_switch (instruments : List String) (s : SongState) (i j : Nat)
    (hlen : s.patternBank.length = 10) (hi : i < 10) (hj : j < 10) :
    (s.seq.isPlaying = false → (switchToPattern instruments i s).1.currentPatternIndex = i)
      ∧ (s.seq.isPlaying = true → i ≠ s.currentPatternIndex →
          (switchToPattern instruments i s).1.currentPatternIndex = s.currentPatternIndex
            ∧ (switchToPattern instruments i s).1.queuedPatternIndex = some i)
      ∧ (s.seq.isPlaying = true → i ≠ s.currentPatternIndex → j ≠ s.currentPatternIndex →
          i ≠ j →
          (fireQueuedSwitch instruments i ((switchToPattern instruments j ((switchToPattern instruments i s).1)).1)).1.currentPatternIndex = s.currentPatternIndex
            ∧ (fireQueuedSwitch instruments i ((switchToPattern instruments j ((switchToPattern instruments i s).1)).1)).1.queuedPatternIndex = some j
            ∧ (fireQueuedSwitch instruments j ((fireQueuedSwitch instruments i ((switchToPattern instruments j ((switchToPattern instruments i s).1)).1)).1)).1.currentPatternIndex = j) := by
  obtain ⟨sf1, sf2, sf3, sf4⟩ := saveCurrentPattern_fields s
  refine ⟨?_, ?_, ?_⟩
  · intro hstop
    unfold switchToPattern
    rw [if_neg (by omega : ¬ i ≥ 10)]
    by_cases hcur : i = s.currentPatternIndex
    · rw [if_pos hcur]
      exact hcur.symm
    · rw [if_neg hcur]
      dsimp only
      rw [if_neg (by rw [sf3, hstop]; exact Bool.false_ne_true)]
      dsimp only
      exact (applyPatternSwitch_fields instruments i _ (by rw [sf4, hlen]; omega)).1
  · intro hplay hne
    rw [switchToPattern_playing instruments i s hi hne hplay]
    exact ⟨sf1, rfl⟩
  · intro hplay hne_i hne_j hij
    have h1 := switchToPattern_playing instruments i s hi hne_i hplay
    set s₁ := (switchToPattern instruments i s).1 with hs₁
    have hcur₁ : s₁.currentPatternIndex = s.currentPatternIndex := by
      rw [h1]
      exact sf1
    have hseq₁ : s₁.seq = s.seq := by
      rw [h1]
      exact sf3
    have hlen₁ : s₁.patternBank.length = 10 := by
      rw [h1]
      show (saveCurrentPattern s).1.patternBank.length = 10
      rw [sf4]
      exact hlen
    obtain ⟨tf1, tf2, tf3, tf4⟩ := saveCurrentPattern_fields s₁
    have h2 := switchToPattern_playing instruments j s₁ hj
      (by rw [hcur₁]; exact hne_j) (by rw [hseq₁]; exact hplay)
    set s₂ := (switchToPattern instruments j s₁).1 with hs₂
    have hq₂ : s₂.queuedPatternIndex = some j := by rw [h2]
    have hcur₂ : s₂.currentPatternIndex = s.currentPatternIndex := by
      rw [h2]
      show (saveCurrentPattern s₁).1.currentPatternIndex = s.currentPatternIndex
      rw [tf1, hcur₁]
    have hlen₂ : s₂.patternBank.length = 10 := by
      rw [h2]
      show (saveCurrentPattern s₁).1.patternBank.length = 10
      rw [tf4]
      exact hlen₁
    have h3 : fireQueuedSwitch instruments i s₂ = (s₂, []) := by
      unfold fireQueuedSwitch
      rw [if_neg (by rw [hq₂]; simp only [Option.some.injEq]; omega)]
    have h4 : (fireQueuedSwitch instruments i s₂).1 = s₂ := by rw [h3]
    refine ⟨?_, ?_, ?_⟩
    · rw [h4]
      exact hcur₂
    · rw [h4]
      exact hq₂
    · rw [h4]
      unfold fireQueuedSwitch
      rw [if_pos hq₂]
      dsimp only
      exact (applyPatternSwitch_fields instruments j s₂ (by rw [hlen₂]; omega)).1

theorem quantized_slot_switch_witness :
    exSongState.patternBank.length = 10 ∧ exSongState.seq.isPlaying = true
      ∧ (fireQueuedSwitch [] 2 ((fireQueuedSwitch [] 1 ((switchToPattern [] 2 ((switchToPattern [] 1 exSongState).1)).1)).1)).1.currentPatternIndex = 2 :=
  ⟨rfl, rfl,
    ((quantized_slot_switch [] exSongState 1 2 rfl (by decide) (by decide)).2.2 rfl
      (by decide) (by decide) (by decide)).2.2⟩

end DrumMachine
